import Mathlib

/-!
Shallow embedding of the motion and sorting core of the Codex-Sorter
repository: codex_sorter/libraries/printer/xl_kinematics.py together with
the orchestrating loop of codex_sorter/main.py.  Floating point millimetre
values are modelled as rationals; the OctoPrint client is modelled by a
function giving the success of each relative jog command, and the GPIO
contact sensor by the Boolean result of each successive poll.
-/

namespace CodexSorter

/-- Ordered constant from codex_sorter/libraries/config.py: POST_HOME_X. -/
def POST_HOME_X : ℚ := 26

/-- Ordered constant from codex_sorter/libraries/config.py: POST_HOME_Y. -/
def POST_HOME_Y : ℚ := 425

/-- Ordered constant from codex_sorter/libraries/config.py: POST_HOME_Z. -/
def POST_HOME_Z : ℚ := 5

/-- Ordered constant from codex_sorter/libraries/config.py: TILE_STEP. -/
def TILE_STEP : ℚ := 90

/-- Tracked head position, embedding the mutable dataclass of
xl_kinematics.py that records the believed X/Y/Z location. -/
structure Pos where
  x : ℚ
  y : ℚ
  z : ℚ
deriving DecidableEq, Repr

/-- Model of the external OctoPrint client jog call: the Boolean says
whether client.jog with the given deltas succeeds (true) or raises. -/
abbrev Send := ℚ → ℚ → ℚ → Bool

/-- Result of one jog helper call: ok carries the tracked position on
return together with whether a command was actually sent to the client;
failed carries the tracked position left behind by a raised exception. -/
inductive JogResult where
  | ok (p : Pos) (sent : Bool)
  | failed (p : Pos)
deriving DecidableEq, Repr

/-- Embedded from the private jog helper of xl_kinematics.py: when all
three deltas are zero nothing is done and the client is not contacted;
otherwise the relative jog is sent, and only after a successful send is
the tracked position incremented by the deltas.  A raised send leaves the
tracked position exactly as it was. -/
def jogDelta (send : Send) (p : Pos) (dx dy dz : ℚ) : JogResult :=
  if dx = 0 ∧ dy = 0 ∧ dz = 0 then .ok p false
  else if send dx dy dz then .ok ⟨p.x + dx, p.y + dy, p.z + dz⟩ true
  else .failed p

/-- Embedded from xl_kinematics.move_head: an absent axis contributes a
zero delta, a present axis contributes target minus the tracked value. -/
def axisDelta (t : Option ℚ) (c : ℚ) : ℚ :=
  match t with
  | some v => v - c
  | none => 0

/-- Embedded from xl_kinematics.move_head: absolute targets are turned
into relative deltas against the tracked position and forwarded to the
jog helper. -/
def moveHead (send : Send) (p : Pos) (x y z : Option ℚ) : JogResult :=
  jogDelta send p (axisDelta x p.x) (axisDelta y p.y) (axisDelta z p.z)

/-- Result of home_all_axes: ok on full success, homeFailed when the
firmware home command raises, jogFailed when the post-home jog raises.
Each constructor carries the tracked position left behind. -/
inductive HomeResult where
  | ok (p : Pos)
  | homeFailed (p : Pos)
  | jogFailed (p : Pos)
deriving DecidableEq, Repr

/-- Embedded from xl_kinematics.home_all_axes: the firmware home command
(client.home) does not touch the tracked position; afterwards the
post-home offset is jogged, which adds the offset to whatever the tracker
already held — the code never resets the tracker to zero first. -/
def homeAllAxes (homeOk : Bool) (send : Send) (p : Pos) : HomeResult :=
  if homeOk then
    match jogDelta send p POST_HOME_X POST_HOME_Y POST_HOME_Z with
    | .ok q _ => .ok q
    | .failed q => .jogFailed q
  else .homeFailed p

/-- A client whose jog calls always succeed. -/
def sendOk : Send := fun _ _ _ => true

/-- Embedded from xl_kinematics.kinematics: resolve the absolute drop
coordinates for an OCR result.  Z is always post-home Z plus a 35 mm
clearance; an empty name shifts X left by TILE_STEP, the special name
Colossal Dreadmaw shifts X right by TILE_STEP, any other name shifts Y
forward by TILE_STEP. -/
def kinematics (cardName : String) : Pos :=
  let targetZ : ℚ := POST_HOME_Z + 35
  if cardName = "" then ⟨POST_HOME_X - TILE_STEP, POST_HOME_Y, targetZ⟩
  else if cardName = "Colossal Dreadmaw" then
    ⟨POST_HOME_X + TILE_STEP, POST_HOME_Y, targetZ⟩
  else ⟨POST_HOME_X, POST_HOME_Y + TILE_STEP, targetZ⟩

/-- C1: the claim says home_all_axes leaves the tracker exactly at the
post-home offset regardless of the prior tracked position.  The code
contradicts its own docstring: from a prior tracked position of
(1, 0, 0), with every client call succeeding, the tracker ends at
(27, 425, 5), the prior position plus the offset, not at the configured
post-home offset (26, 425, 5). -/
theorem home_tracker_not_post_home :
    homeAllAxes true sendOk ⟨1, 0, 0⟩ = .ok ⟨27, 425, 5⟩ ∧
      Pos.mk 27 425 5 ≠ Pos.mk POST_HOME_X POST_HOME_Y POST_HOME_Z := by
  constructor
  · norm_num [homeAllAxes, jogDelta, sendOk, POST_HOME_X, POST_HOME_Y,
      POST_HOME_Z]
  · norm_num [POST_HOME_X, POST_HOME_Y, POST_HOME_Z, Pos.mk.injEq]

/-- C9: a move_head call with every axis absent computes all-zero deltas,
so the jog helper returns at once: no command is sent to the external
client (hence no settle wait, which only follows an actual send), the
tracked position is returned unchanged, and the call succeeds. -/
theorem moveHead_all_absent_noop (send : Send) (p : Pos) :
    moveHead send p none none none = .ok p false := by
  simp [moveHead, jogDelta, axisDelta]

/-- C2: if the external jog raises, move_head propagates the failure and
the tracked position is exactly unchanged; and a tracker update happens
only when the send was made and confirmed, in which case the new value is
the old one plus the computed deltas. -/
theorem moveHead_failure_preserves_tracker (send : Send) (p : Pos)
    (x y z : Option ℚ) :
    (∀ q, moveHead send p x y z = .failed q → q = p) ∧
      (∀ q, moveHead send p x y z = .ok q true →
        send (axisDelta x p.x) (axisDelta y p.y) (axisDelta z p.z) = true ∧
          q = ⟨p.x + axisDelta x p.x, p.y + axisDelta y p.y,
                p.z + axisDelta z p.z⟩) := by
  constructor
  · intro q hq
    unfold moveHead jogDelta at hq
    by_cases h0 : axisDelta x p.x = 0 ∧ axisDelta y p.y = 0 ∧ axisDelta z p.z = 0
    · rw [if_pos h0] at hq
      exact absurd hq (by simp)
    · rw [if_neg h0] at hq
      by_cases hs : send (axisDelta x p.x) (axisDelta y p.y) (axisDelta z p.z) = true
      · rw [if_pos hs] at hq
        exact absurd hq (by simp)
      · rw [if_neg hs] at hq
        injection hq with h
        exact h.symm
  · intro q hq
    unfold moveHead jogDelta at hq
    by_cases h0 : axisDelta x p.x = 0 ∧ axisDelta y p.y = 0 ∧ axisDelta z p.z = 0
    · rw [if_pos h0] at hq
      exact absurd hq (by simp)
    · rw [if_neg h0] at hq
      by_cases hs : send (axisDelta x p.x) (axisDelta y p.y) (axisDelta z p.z) = true
      · rw [if_pos hs] at hq
        injection hq with h1 _
        exact ⟨hs, h1.symm⟩
      · rw [if_neg hs] at hq
        exact absurd hq (by simp)

/-- C2 witness: with a client that always fails, a request to move X to 5
from the origin is propagated as a failure that leaves the tracker at the
origin. -/
theorem moveHead_failure_preserves_tracker_witness :
    Pos.mk 0 0 0 = Pos.mk 0 0 0 :=
  (moveHead_failure_preserves_tracker (fun _ _ _ => false) ⟨0, 0, 0⟩
    (some 5) none none).1 ⟨0, 0, 0⟩
    (by norm_num [moveHead, jogDelta, axisDelta])

/-- C4: the routing function is pure and total; for every input the Z
coordinate is post-home Z plus the fixed 35 mm clearance, and exactly one
lateral offset fires by precedence: empty name shifts X by minus
TILE_STEP, the special label Colossal Dreadmaw shifts X by plus
TILE_STEP, and any other name shifts Y by plus TILE_STEP. -/
theorem kinematics_resolve_cases (s : String) :
    (s = "" →
      kinematics s = ⟨POST_HOME_X - TILE_STEP, POST_HOME_Y, POST_HOME_Z + 35⟩) ∧
    (s = "Colossal Dreadmaw" →
      kinematics s = ⟨POST_HOME_X + TILE_STEP, POST_HOME_Y, POST_HOME_Z + 35⟩) ∧
    (s ≠ "" → s ≠ "Colossal Dreadmaw" →
      kinematics s = ⟨POST_HOME_X, POST_HOME_Y + TILE_STEP, POST_HOME_Z + 35⟩) := by
  refine ⟨fun h => ?_, fun h => ?_, fun h1 h2 => ?_⟩
  · simp [kinematics, h]
  · simp [kinematics, h]
  · simp [kinematics, h1, h2]

/-- C4 witness: an ordinary recognized name routes to the forward bin. -/
theorem kinematics_resolve_cases_witness :
    kinematics "Lightning Bolt" =
      ⟨POST_HOME_X, POST_HOME_Y + TILE_STEP, POST_HOME_Z + 35⟩ :=
  (kinematics_resolve_cases "Lightning Bolt").2.2 (by decide) (by decide)

/-- MotionRequest from the data model: one absolute target per axis, each
axis optional, matching the keyword arguments of move_head. -/
structure Req where
  x : Option ℚ
  y : Option ℚ
  z : Option ℚ
deriving DecidableEq, Repr

/-- move_head applied to a request record. -/
def moveHeadReq (send : Send) (p : Pos) (r : Req) : JogResult :=
  moveHead send p r.x r.y r.z

/-- The delta triple move_head derives from a request at a given tracked
position; an absent axis contributes zero. -/
def reqDelta (p : Pos) (r : Req) : ℚ × ℚ × ℚ :=
  (axisDelta r.x p.x, axisDelta r.y p.y, axisDelta r.z p.z)

/-- Add one delta triple onto a position, as the jog helper does after a
confirmed send. -/
def addDelta (p : Pos) (d : ℚ × ℚ × ℚ) : Pos :=
  ⟨p.x + d.1, p.y + d.2.1, p.z + d.2.2⟩

/-- Run a list of move_head calls in order, stopping at the first raised
send; returns the final tracked position when every call succeeded. -/
def runMoves (send : Send) : Pos → List Req → Option Pos
  | p, [] => some p
  | p, r :: rs =>
    match moveHeadReq send p r with
    | .ok q _ => runMoves send q rs
    | .failed _ => none

/-- The deltas the successive calls derive from their requested absolute
targets, computed in order against the evolving tracked position. -/
def deltasFrom (p : Pos) : List Req → List (ℚ × ℚ × ℚ)
  | [] => []
  | r :: rs => reqDelta p r :: deltasFrom (addDelta p (reqDelta p r)) rs

/-- Componentwise sum of a list of delta triples. -/
def sumDeltas : List (ℚ × ℚ × ℚ) → ℚ × ℚ × ℚ
  | [] => (0, 0, 0)
  | d :: ds =>
    (d.1 + (sumDeltas ds).1, d.2.1 + (sumDeltas ds).2.1,
      d.2.2 + (sumDeltas ds).2.2)

lemma moveHeadReq_ok (send : Send) (hsend : ∀ a b c, send a b c = true)
    (p : Pos) (r : Req) :
    ∃ b, moveHeadReq send p r = .ok (addDelta p (reqDelta p r)) b := by
  unfold moveHeadReq moveHead jogDelta
  by_cases h0 : axisDelta r.x p.x = 0 ∧ axisDelta r.y p.y = 0 ∧
      axisDelta r.z p.z = 0
  · refine ⟨false, ?_⟩
    rw [if_pos h0]
    obtain ⟨h1, h2, h3⟩ := h0
    simp [addDelta, reqDelta, h1, h2, h3]
  · refine ⟨true, ?_⟩
    rw [if_neg h0, if_pos (hsend _ _ _)]
    rfl

lemma addDelta_addDelta (p : Pos) (d e : ℚ × ℚ × ℚ) :
    addDelta (addDelta p d) e =
      addDelta p (d.1 + e.1, d.2.1 + e.2.1, d.2.2 + e.2.2) := by
  simp [addDelta, add_assoc]

lemma runMoves_eq_sum (send : Send) (hsend : ∀ a b c, send a b c = true) :
    ∀ (rs : List Req) (p : Pos),
      runMoves send p rs = some (addDelta p (sumDeltas (deltasFrom p rs)))
  | [], p => by simp [runMoves, deltasFrom, sumDeltas, addDelta]
  | r :: rs, p => by
    obtain ⟨b, hb⟩ := moveHeadReq_ok send hsend p r
    rw [runMoves, hb]
    show runMoves send (addDelta p (reqDelta p r)) rs
      = some (addDelta p (sumDeltas (deltasFrom p (r :: rs))))
    rw [runMoves_eq_sum send hsend rs (addDelta p (reqDelta p r))]
    rw [addDelta_addDelta]
    simp [deltasFrom, sumDeltas]

/-- C3 counterexample: the claim as stated quantifies over every home.
After a home performed with the tracker at (1, 0, 0), every client call
succeeding, the tracker is (27, 425, 5); the empty sequence of successful
move_head calls leaves it there, which differs from the post-home offset
plus the (empty) sum of derived deltas, namely (26, 425, 5).  So the
claimed equality fails for homes from a nonzero prior tracker. -/
theorem tracker_sum_after_nonzero_home_counterexample :
    homeAllAxes true sendOk ⟨1, 0, 0⟩ = .ok ⟨27, 425, 5⟩ ∧
      runMoves sendOk ⟨27, 425, 5⟩ [] = some ⟨27, 425, 5⟩ ∧
      Pos.mk 27 425 5 ≠
        addDelta ⟨POST_HOME_X, POST_HOME_Y, POST_HOME_Z⟩
          (sumDeltas (deltasFrom ⟨POST_HOME_X, POST_HOME_Y, POST_HOME_Z⟩ [])) := by
  refine ⟨?_, rfl, ?_⟩
  · norm_num [homeAllAxes, jogDelta, sendOk, POST_HOME_X, POST_HOME_Y,
      POST_HOME_Z]
  · norm_num [addDelta, sumDeltas, deltasFrom, POST_HOME_X, POST_HOME_Y,
      POST_HOME_Z, Pos.mk.injEq]

/-- C3 amended: starting from the tracked position produced by the
initial home_all_axes, the one performed with the tracker at its
process-start zero, a sequence of move_head calls in which every send
succeeds leaves the tracker at the post-home offset plus the
componentwise sum, taken in order, of the deltas derived from the
successive requested absolute targets, each applied exactly once, an
absent axis contributing a zero delta.  A home from a nonzero prior
tracker instead rebases on prior plus offset, which is the C1 bug. -/
theorem tracker_sum_of_deltas (send : Send)
    (hsend : ∀ a b c, send a b c = true) (rs : List Req) (p0 : Pos)
    (hp0 : homeAllAxes true send ⟨0, 0, 0⟩ = .ok p0) :
    p0 = ⟨POST_HOME_X, POST_HOME_Y, POST_HOME_Z⟩ ∧
      runMoves send p0 rs = some (addDelta p0 (sumDeltas (deltasFrom p0 rs))) := by
  refine ⟨?_, runMoves_eq_sum send hsend rs p0⟩
  have hc : ¬(POST_HOME_X = 0 ∧ POST_HOME_Y = 0 ∧ POST_HOME_Z = 0) := by
    norm_num [POST_HOME_X]
  have hhome : homeAllAxes true send ⟨0, 0, 0⟩ =
      .ok ⟨POST_HOME_X, POST_HOME_Y, POST_HOME_Z⟩ := by
    unfold homeAllAxes jogDelta
    rw [if_pos rfl, if_neg hc, if_pos (hsend _ _ _)]
    norm_num
  rw [hhome] at hp0
  injection hp0 with h1
  exact h1.symm

/-- C3 witness: from the post-home offset, a move of X to 30 followed by a
move of Y to 430 and Z to 10, all sends succeeding, ends at the offset
plus the summed deltas. -/
theorem tracker_sum_of_deltas_witness :
    runMoves sendOk ⟨POST_HOME_X, POST_HOME_Y, POST_HOME_Z⟩
        [⟨some 30, none, none⟩, ⟨none, some 430, some 10⟩]
      = some (addDelta ⟨POST_HOME_X, POST_HOME_Y, POST_HOME_Z⟩
          (sumDeltas (deltasFrom ⟨POST_HOME_X, POST_HOME_Y, POST_HOME_Z⟩
            [⟨some 30, none, none⟩, ⟨none, some 430, some 10⟩]))) := by
  refine (tracker_sum_of_deltas sendOk (fun _ _ _ => rfl)
    [⟨some 30, none, none⟩, ⟨none, some 430, some 10⟩]
    ⟨POST_HOME_X, POST_HOME_Y, POST_HOME_Z⟩ ?_).2
  norm_num [homeAllAxes, jogDelta, sendOk, POST_HOME_X, POST_HOME_Y,
    POST_HOME_Z]

/-- Outcome of lower_until_contact: contact when the sensor poll came back
pressed, limitHit for the RuntimeError raised at the travel guard, and
jogFailed when a jog send raised.  Each constructor carries the tracked
position and the number of jog commands actually sent to the client. -/
inductive DOut where
  | contact (p : Pos) (jogs : ℕ)
  | limitHit (p : Pos) (jogs : ℕ)
  | jogFailed (p : Pos) (jogs : ℕ)
deriving DecidableEq, Repr

/-- The travel guard of lower_until_contact: trips when a maximum travel
is configured and the accumulated travel has reached or passed it. -/
def limitTripped (maxTravel : Option ℚ) (traveled : ℚ) : Bool :=
  match maxTravel with
  | some m => decide (m ≤ traveled)
  | none => false

/-- Embedded from xl_kinematics.lower_until_contact, indexed by fuel since
the Python loop is unbounded when no maximum travel is configured.  Poll k
reads the sensor at loop iteration k; while the sensor is not pressed and
the guard has not tripped, a downward jog of one step is sent through the
jog helper and the travel accumulates.  A result of none means the fuel
ran out before the loop returned. -/
def lowerGo (send : Send) (sensor : ℕ → Bool) (step : ℚ)
    (maxTravel : Option ℚ) :
    ℕ → ℕ → ℕ → ℚ → Pos → Option DOut
  | 0, _, _, _, _ => none
  | fuel + 1, k, jogs, traveled, p =>
    if sensor k then some (.contact p jogs)
    else if limitTripped maxTravel traveled then some (.limitHit p jogs)
    else
      match jogDelta send p 0 0 (-step) with
      | .failed q => some (.jogFailed q jogs)
      | .ok q sent =>
        lowerGo send sensor step maxTravel fuel (k + 1)
          (jogs + if sent then 1 else 0) (traveled + step) q

lemma jogDelta_down (send : Send) (hsend : ∀ a b c, send a b c = true)
    (p : Pos) (step : ℚ) (hstep : step ≠ 0) :
    jogDelta send p 0 0 (-step) = .ok ⟨p.x, p.y, p.z - step⟩ true := by
  unfold jogDelta
  rw [if_neg (by simp [neg_eq_zero, hstep]), if_pos (hsend _ _ _)]
  simp [sub_eq_add_neg]

lemma lowerGo_limit_aux (send : Send) (sensor : ℕ → Bool) (step m : ℚ)
    (N : ℕ) (q : Pos)
    (hsend : ∀ a b c, send a b c = true) (hstep : 0 < step)
    (hN : m ≤ (N : ℚ) * step)
    (hleast : ∀ j : ℕ, j < N → ¬ m ≤ (j : ℚ) * step)
    (hsensor : ∀ j : ℕ, j ≤ N → sensor j = false) :
    ∀ fuel k, k ≤ N → N - k < fuel →
      lowerGo send sensor step (some m) fuel k k ((k : ℚ) * step)
          ⟨q.x, q.y, q.z - (k : ℚ) * step⟩
        = some (.limitHit ⟨q.x, q.y, q.z - (N : ℚ) * step⟩ N) := by
  intro fuel
  induction fuel with
  | zero => intro k hk hf; omega
  | succ fuel ih =>
    intro k hk hf
    rw [lowerGo, hsensor k hk, if_neg Bool.false_ne_true]
    rcases eq_or_lt_of_le hk with heq | hlt
    · subst heq
      have ht : limitTripped (some m) ((k : ℚ) * step) = true := by
        unfold limitTripped
        exact decide_eq_true hN
      rw [ht, if_pos rfl]
    · have ht : limitTripped (some m) ((k : ℚ) * step) = false := by
        unfold limitTripped
        exact decide_eq_false (hleast k hlt)
      rw [ht, if_neg Bool.false_ne_true,
        jogDelta_down send hsend _ step (ne_of_gt hstep)]
      show lowerGo send sensor step (some m) fuel (k + 1) (k + 1)
          ((k : ℚ) * step + step) ⟨q.x, q.y, q.z - (k : ℚ) * step - step⟩
        = some (.limitHit ⟨q.x, q.y, q.z - (N : ℚ) * step⟩ N)
      have e1 : (k : ℚ) * step + step = ((k + 1 : ℕ) : ℚ) * step := by
        push_cast
        ring
      have e2 : q.z - (k : ℚ) * step - step = q.z - ((k + 1 : ℕ) : ℚ) * step := by
        push_cast
        ring
      rw [e1, e2]
      exact ih (k + 1) hlt (by omega)

/-- C5: with every jog send succeeding, a positive step, N the least jog
count whose accumulated travel reaches the configured maximum, and a
sensor that stays unpressed through poll N, lower_until_contact sends
exactly N downward jogs, lowers the tracked Z by N steps, and then raises
the travel-limit RuntimeError.  For step 1 and maximum travel 5 this is
exactly 5 steps, as the witness checks. -/
theorem descent_travel_limit (send : Send) (sensor : ℕ → Bool) (step m : ℚ)
    (N : ℕ) (p : Pos) (fuel : ℕ)
    (hsend : ∀ a b c, send a b c = true) (hstep : 0 < step)
    (hN : m ≤ (N : ℚ) * step)
    (hleast : ∀ j : ℕ, j < N → ¬ m ≤ (j : ℚ) * step)
    (hsensor : ∀ j : ℕ, j ≤ N → sensor j = false)
    (hfuel : N < fuel) :
    lowerGo send sensor step (some m) fuel 0 0 0 p
      = some (.limitHit ⟨p.x, p.y, p.z - (N : ℚ) * step⟩ N) := by
  have h := lowerGo_limit_aux send sensor step m N p hsend hstep hN hleast
    hsensor fuel 0 (Nat.zero_le N) (by omega)
  simpa using h

/-- C5 witness: a sensor that never reports pressed, maximum travel 5 and
step 1 give exactly 5 downward jogs, Z lowered from 0 to minus 5, and the
travel-limit abort. -/
theorem descent_travel_limit_witness :
    lowerGo sendOk (fun _ => false) 1 (some 5) 6 0 0 0 ⟨0, 0, 0⟩
      = some (.limitHit ⟨0, 0, -5⟩ 5) := by
  have h := descent_travel_limit sendOk (fun _ => false) 1 5 5 ⟨0, 0, 0⟩ 6
    (fun _ _ _ => rfl) (by norm_num) (by push_cast; norm_num)
    (by intro j hj; interval_cases j <;> norm_num) (fun j _ => rfl)
    (by omega)
  rw [h]
  norm_num

/-- C8: when the very first sensor poll already reports pressed,
lower_until_contact returns success at once: no jog command is sent and
the tracked position is returned unchanged. -/
theorem descent_already_pressed (send : Send) (sensor : ℕ → Bool)
    (step : ℚ) (maxTravel : Option ℚ) (fuel : ℕ) (p : Pos)
    (hs : sensor 0 = true) (hf : 0 < fuel) :
    lowerGo send sensor step maxTravel fuel 0 0 0 p = some (.contact p 0) := by
  obtain ⟨f, rfl⟩ := Nat.exists_eq_add_of_lt hf
  rw [Nat.zero_add, lowerGo, if_pos hs]

/-- C8 witness: an always-pressed sensor gives immediate success with the
position untouched and zero jogs sent. -/
theorem descent_already_pressed_witness :
    lowerGo sendOk (fun _ => true) 1 (some 5) 1 0 0 0 ⟨2, 3, 4⟩
      = some (.contact ⟨2, 3, 4⟩ 0) :=
  descent_already_pressed sendOk (fun _ => true) 1 (some 5) 1 ⟨2, 3, 4⟩ rfl
    (by omega)

/-- The number of jog commands recorded in a descent outcome. -/
def jogCount : DOut → ℕ
  | .contact _ j => j
  | .limitHit _ j => j
  | .jogFailed _ j => j

lemma lowerGo_total_aux (send : Send) (sensor : ℕ → Bool) (step m : ℚ)
    (N : ℕ)
    (hsend : ∀ a b c, send a b c = true) (hstep : 0 < step)
    (hN : m ≤ (N : ℚ) * step) :
    ∀ fuel k jogs p, k ≤ N → N - k < fuel → jogs ≤ k →
      ∃ r, lowerGo send sensor step (some m) fuel k jogs ((k : ℚ) * step) p
          = some r ∧ jogCount r ≤ N := by
  intro fuel
  induction fuel with
  | zero => intro k jogs p hk hf _; omega
  | succ fuel ih =>
    intro k jogs p hk hf hj
    rw [lowerGo]
    by_cases hs : sensor k = true
    · rw [if_pos hs]
      exact ⟨.contact p jogs, rfl, le_trans hj hk⟩
    · rw [if_neg hs]
      by_cases hlim : m ≤ (k : ℚ) * step
      · have ht : limitTripped (some m) ((k : ℚ) * step) = true := by
          unfold limitTripped
          exact decide_eq_true hlim
        rw [ht, if_pos rfl]
        exact ⟨.limitHit p jogs, rfl, le_trans hj hk⟩
      · have ht : limitTripped (some m) ((k : ℚ) * step) = false := by
          unfold limitTripped
          exact decide_eq_false hlim
        rw [ht, if_neg Bool.false_ne_true,
          jogDelta_down send hsend p step (ne_of_gt hstep)]
        have hkN : k < N := by
          rcases eq_or_lt_of_le hk with rfl | h
          · exact absurd hN hlim
          · exact h
        show ∃ r, lowerGo send sensor step (some m) fuel (k + 1) (jogs + 1)
            ((k : ℚ) * step + step) ⟨p.x, p.y, p.z - step⟩ = some r
          ∧ jogCount r ≤ N
        have e1 : (k : ℚ) * step + step = ((k + 1 : ℕ) : ℚ) * step := by
          push_cast
          ring
        rw [e1]
        exact ih (k + 1) (jogs + 1) ⟨p.x, p.y, p.z - step⟩ hkN (by omega)
          (by omega)

/-- C10: with every jog send succeeding and a positive step, let N be the
least jog count whose accumulated travel reaches the configured maximum,
that is the ceiling of the maximum travel divided by the step.  First,
with the maximum configured, the loop terminates for every sensor
behaviour within N plus one polls, returning an outcome that sent at most
N jogs; second, with no maximum configured and a sensor that never
reports pressed, the loop never returns however much fuel it is given. -/
theorem descent_bounded_and_unbounded (send : Send) (step m : ℚ) (N : ℕ)
    (p : Pos)
    (hsend : ∀ a b c, send a b c = true) (hstep : 0 < step)
    (hN : m ≤ (N : ℚ) * step) :
    (∀ sensor : ℕ → Bool, ∃ r,
        lowerGo send sensor step (some m) (N + 1) 0 0 0 p = some r
          ∧ jogCount r ≤ N)
    ∧ (∀ sensor : ℕ → Bool, (∀ k, sensor k = false) →
        ∀ fuel k jogs traveled q,
          lowerGo send sensor step none fuel k jogs traveled q = none) := by
  constructor
  · intro sensor
    have h := lowerGo_total_aux send sensor step m N hsend hstep hN (N + 1)
      0 0 p (Nat.zero_le N) (by omega) (le_refl 0)
    simpa using h
  · intro sensor hsensor fuel
    induction fuel with
    | zero => intro k jogs traveled q; rfl
    | succ fuel ih =>
      intro k jogs traveled q
      rw [lowerGo, hsensor k, if_neg Bool.false_ne_true]
      have ht : limitTripped none traveled = false := rfl
      rw [ht, if_neg Bool.false_ne_true,
        jogDelta_down send hsend q step (ne_of_gt hstep)]
      exact ih (k + 1) (jogs + 1) (traveled + step) ⟨q.x, q.y, q.z - step⟩

/-- C10 witness: for step 1 and maximum 5, a sensor pressed from poll 3
yields a returned outcome with at most 5 jogs within 6 polls, and with no
maximum a never-pressed sensor yields no return even with fuel 7. -/
theorem descent_bounded_and_unbounded_witness :
    (∃ r, lowerGo sendOk (fun k => decide (k = 3)) 1 (some 5) 6 0 0 0
        ⟨0, 0, 0⟩ = some r ∧ jogCount r ≤ 5)
    ∧ lowerGo sendOk (fun _ => false) 1 none 7 0 0 0 ⟨0, 0, 0⟩ = none := by
  have h := descent_bounded_and_unbounded sendOk 1 5 5 ⟨0, 0, 0⟩
    (fun _ _ _ => rfl) (by norm_num) (by push_cast; norm_num)
  exact ⟨h.1 (fun k => decide (k = 3)),
    h.2 (fun _ => false) (fun _ => rfl) 7 0 0 0 ⟨0, 0, 0⟩⟩

/-- Character-wise ASCII upper-casing, modelling the Python str.upper
call on the OCR labels handled here. -/
def strUpper (s : String) : String := ⟨s.data.map Char.toUpper⟩

/-- Embedded from the kinematics helper defined inside main.py: a
hard-coded lookup from the upper-cased card type to a drop location, with
an UNKNOWN fallback used for every unmapped type, the empty OCR result
included. -/
def mainKinematics (cardType : String) : Pos :=
  let k := strUpper cardType
  if k = "A" then ⟨150, 0, 10⟩
  else if k = "B" then ⟨150, 20, 10⟩
  else if k = "C" then ⟨150, 40, 10⟩
  else ⟨150, -20, 10⟩

/-- Embedded from main.run_ocr_and_get_type: one capture followed by one
classification, with no retry of any kind.  The classifier argument gives
the label produced by attempt number n; the call consumes exactly one
attempt and returns its label together with the advanced attempt counter. -/
def run_ocr_and_get_type (classify : ℕ → String) (attempt : ℕ) :
    String × ℕ :=
  (classify attempt, attempt + 1)

/-- Steps c and d of one iteration of the sorting loop in main.main: run
the OCR helper once, then resolve the drop target through the lookup.
Returns the number of capture-classify attempts consumed and the target. -/
def classifyAndRoute (classify : ℕ → String) : ℕ × Pos :=
  let r := run_ocr_and_get_type classify 0
  (r.2, mainKinematics r.1)

/-- C6 counterexample: the claim says a cycle whose classification comes
back empty re-captures and re-classifies once more, so an always-empty
classifier should consume two attempts; the code consumes exactly one. -/
theorem classify_no_retry_counterexample :
    (classifyAndRoute fun _ => "").1 = 1 ∧ (classifyAndRoute fun _ => "").1 ≠ 2 := by
  constructor
  · rfl
  · decide

/-- C6 amended: the orchestrator performs exactly one capture-classify
attempt per cycle, with no retry; a cycle whose classification returns
empty still completes, routing the card to the fallback unknown bin
instead of aborting. -/
theorem classify_single_attempt_unknown_route (classify : ℕ → String)
    (h : classify 0 = "") :
    classifyAndRoute classify = (1, ⟨150, -20, 10⟩) := by
  unfold classifyAndRoute run_ocr_and_get_type
  rw [h]
  show (1, mainKinematics "") = (1, ⟨150, -20, 10⟩)
  have hu : mainKinematics "" = ⟨150, -20, 10⟩ := by decide
  rw [hu]

/-- C6 witness: an always-empty classifier consumes one attempt and the
cycle routes to the unknown bin. -/
theorem classify_single_attempt_unknown_route_witness :
    classifyAndRoute (fun _ => "") = (1, ⟨150, -20, 10⟩) :=
  classify_single_attempt_unknown_route (fun _ => "") rfl

/-- Fatal error taxonomy of a sort cycle: a raised stage send and the
descent travel-limit abort. -/
inductive FatalErr where
  | sendFailed
  | travelLimit
deriving DecidableEq, Repr

/-- Observable actuator events of a run of main.main: completion of cycle
i, and one Fan.off call on the suction actuator. -/
inductive Ev where
  | cycleDone (i : ℕ)
  | fanOff
deriving DecidableEq, Repr

/-- Whether an event is the suction actuator being switched off. -/
def isFanOff : Ev → Bool
  | .fanOff => true
  | .cycleDone _ => false

/-- How many times the suction actuator was switched off in a trace. -/
def fanOffCount (t : List Ev) : ℕ := (t.filter isFanOff).length

/-- Embedded from the sorting loop of main.main, iterating over the cycle
index: the body of each cycle contains motion, descent, OCR, routing and
drop steps and no Fan.off call; cycleErr i is none when every fallible
step of cycle i succeeds, and the raised error otherwise.  There is no
enclosing handler, so a raised error ends the loop at once with the trace
accumulated so far. -/
def mainLoop (cycleErr : ℕ → Option FatalErr) :
    ℕ → ℕ → List Ev × Option FatalErr
  | _, 0 => ([], none)
  | i, rem + 1 =>
    match cycleErr i with
    | some e => ([], some e)
    | none =>
      let r := mainLoop cycleErr (i + 1) rem
      (Ev.cycleDone i :: r.1, r.2)

/-- Embedded from main.main after the setup phase: run the loop over n
cycles; only after the whole loop completes is fan.off() called, once,
before the finished log line.  A raised error propagates out of main with
no Fan.off call on the way, since the function has no handler around the
loop. -/
def mainRun (cycleErr : ℕ → Option FatalErr) (n : ℕ) :
    List Ev × Option FatalErr :=
  match mainLoop cycleErr 0 n with
  | (t, some e) => (t, some e)
  | (t, none) => (t ++ [Ev.fanOff], none)

lemma mainLoop_no_fanOff (ce : ℕ → Option FatalErr) :
    ∀ rem i, fanOffCount (mainLoop ce i rem).1 = 0 := by
  intro rem
  induction rem with
  | zero => intro i; rfl
  | succ rem ih =>
    intro i
    rw [mainLoop]
    cases h : ce i with
    | some e => rfl
    | none => exact ih (i + 1)

lemma mainLoop_ok (ce : ℕ → Option FatalErr) :
    ∀ rem i, (∀ j, j < rem → ce (i + j) = none) →
      (mainLoop ce i rem).2 = none := by
  intro rem
  induction rem with
  | zero => intro i _; rfl
  | succ rem ih =>
    intro i h
    rw [mainLoop]
    have h0 : ce i = none := by simpa using h 0 (by omega)
    rw [h0]
    refine ih (i + 1) fun j hj => ?_
    have hh := h (j + 1) (by omega)
    rwa [show i + (j + 1) = i + 1 + j from by omega] at hh

/-- C7 amended: a run in which every cycle succeeds switches the suction
actuator off exactly once, after the loop and before finishing; a run in
which some cycle raises a fatal error propagates that error with no
Fan.off call at all, because main has no cleanup handler around the loop. -/
theorem suction_off_on_exit_paths (ce : ℕ → Option FatalErr) (n : ℕ) :
    ((∀ i, i < n → ce i = none) →
        (mainRun ce n).2 = none ∧ fanOffCount (mainRun ce n).1 = 1)
    ∧ (∀ e, (mainRun ce n).2 = some e → fanOffCount (mainRun ce n).1 = 0) := by
  have hno := mainLoop_no_fanOff ce n 0
  constructor
  · intro h
    have h2 : (mainLoop ce 0 n).2 = none :=
      mainLoop_ok ce n 0 fun j hj => by simpa using h j hj
    unfold mainRun
    rcases hml : mainLoop ce 0 n with ⟨t, o⟩
    rw [hml] at h2 hno
    obtain rfl : o = none := h2
    refine ⟨rfl, ?_⟩
    show fanOffCount (t ++ [Ev.fanOff]) = 1
    have ht0 : fanOffCount t = 0 := hno
    simp only [fanOffCount, List.filter_append] at ht0 ⊢
    simp [ht0, isFanOff]
  · intro e he
    unfold mainRun at he ⊢
    rcases hml : mainLoop ce 0 n with ⟨t, o⟩
    rw [hml] at he hno
    cases o with
    | some e2 => exact hno
    | none => simp at he

/-- C7 witness: a two-cycle run with no failures finishes with the
actuator switched off exactly once. -/
theorem suction_off_on_exit_paths_witness :
    (mainRun (fun _ => none) 2).2 = none ∧
      fanOffCount (mainRun (fun _ => none) 2).1 = 1 :=
  (suction_off_on_exit_paths (fun _ => none) 2).1 fun _ _ => rfl

/-- C7 counterexample: the claim says every fatal-error path attempts to
switch the suction actuator off while propagating; in the code a send
failure in the first cycle propagates out of main with zero Fan.off
calls. -/
theorem suction_error_path_no_off :
    (mainRun (fun _ => some .sendFailed) 1).2 = some .sendFailed ∧
      fanOffCount (mainRun (fun _ => some .sendFailed) 1).1 = 0 := by
  constructor
  · rfl
  · rfl

end CodexSorter
